import Mathlib

/-!
# Verification of the acs-comms real-time audio bridge

A shallow embedding of the core data model and operations of the
`acs_bridge` package (call state, frame pacer, sentence segmentation for
TTS, STT backpressure and worker loop, composite TTS fallback, Piper TTS
caching), with theorems settling the specification claims.

Python strings are embedded as `List Char`; machine-level byte buffers as
`List Nat`; fallible Python code as `Except PyExn`.  All recursions are
structural (fuel counters bound the work where the Python loop consumes a
variable amount of input per step), so every definition evaluates inside
the kernel.
-/

namespace AcsBridge

/-- Python exceptions that the embedded code can raise. -/
inductive PyExn where
  | attributeError (name : String)
  | valueError (msg : String)
  | runtimeError (msg : String)
  | assertionError (msg : String)
  deriving Repr, DecidableEq

/-! ## Basic Python string primitives over `List Char`

These embed the exact`str` operations the source uses: `str.strip`,
`re.sub(r"\s+", " ", _)`, the substring test `pat in s`, and
`str.replace` (leftmost, non-overlapping, global). -/

/-- Whitespace as matched by Python's `str.strip` and `\s` (ASCII range). -/
def pyIsSpace (c : Char) : Bool :=
  c = ' ' ∨ c = '\t' ∨ c = '\n' ∨ c = '\r' ∨ c = '\x0b' ∨ c = '\x0c'

/-- Python `str.strip()`: remove leading and trailing whitespace. -/
def stripChars (l : List Char) : List Char :=
  ((l.dropWhile pyIsSpace).reverse.dropWhile pyIsSpace).reverse

/-- Worker for `collapseWs`: `inRun` is true while we are inside a
whitespace run whose first character has already been emitted as `' '`. -/
def collapseWsGo : Bool → List Char → List Char
  | _, [] => []
  | inRun, c :: rest =>
    if pyIsSpace c then
      if inRun then collapseWsGo true rest
      else ' ' :: collapseWsGo true rest
    else c :: collapseWsGo false rest

/-- Python `re.sub(r"\s+", " ", text)`: each whitespace run becomes one
single space. -/
def collapseWs (l : List Char) : List Char :=
  collapseWsGo false l

/-- Python `pat in s` (substring containment). -/
def containsSub (pat : List Char) : List Char → Bool
  | [] => decide (pat = [])
  | c :: rest => pat.isPrefixOf (c :: rest) || containsSub pat rest

/-- Fuel-bounded worker for `replaceAll`; the fuel is an upper bound on the
number of characters still to be scanned, so `fuel = l.length` suffices. -/
def replaceAllGo (pat rep : List Char) : Nat → List Char → List Char
  | _, [] => []
  | 0, l => l
  | fuel + 1, c :: rest =>
    if pat ≠ [] ∧ pat.isPrefixOf (c :: rest) then
      rep ++ replaceAllGo pat rep fuel (List.drop (pat.length - 1) rest)
    else
      c :: replaceAllGo pat rep fuel rest

/-- Python `s.replace(pat, rep)`: leftmost-first, non-overlapping, global
replacement (for non-empty `pat`, which is the only way the source uses it). -/
def replaceAll (pat rep l : List Char) : List Char :=
  replaceAllGo pat rep l.length l

/-- Python `s.strip()` on `String`. -/
def pyStrip (s : String) : String :=
  String.mk (stripChars s.data)

/-! ## `acs_bridge.audio.textnorm`

Embedding of `normalize` (sentence segmentation for TTS) and
`preprocess_for_tts`, following `src/acs_bridge/audio/textnorm.py`
line by line. -/

/-- The fixed abbreviation list of `textnorm.normalize`, in source order. -/
def abbreviations : List String :=
  ["Dr.", "Mr.", "Mrs.", "Ms.", "Prof.", "Sr.", "Jr.",
   "U.S.A.", "U.K.", "U.S.", "vs.", "etc.", "i.e.", "e.g.",
   "Inc.", "Corp.", "Ltd.", "Co.", "St.", "Ave.", "Rd.",
   "Jan.", "Feb.", "Mar.", "Apr.", "Jun.", "Jul.", "Aug.",
   "Sep.", "Oct.", "Nov.", "Dec."]

/-- The placeholder the source substitutes for the `i`-th abbreviation:
`f"__ABBREV_{i}__"`. -/
def placeholder (i : Nat) : List Char :=
  "__ABBREV_".data ++ (Nat.repr i).data ++ "__".data

/-- The protection pass of `normalize`: walk the abbreviation list in order
and, for each abbreviation occurring in the text, replace every occurrence
by its placeholder, recording the (insertion-ordered) placeholder map. -/
def protectAbbrevsGo (i : Nat) (abbrevs : List String) (t : List Char) :
    List Char × List (Nat × List Char) :=
  match abbrevs with
  | [] => (t, [])
  | a :: rest =>
    if containsSub a.data t then
      let t' := replaceAll a.data (placeholder i) t
      let (t'', ps) := protectAbbrevsGo (i + 1) rest t'
      (t'', (i, a.data) :: ps)
    else
      protectAbbrevsGo (i + 1) rest t

def protectAbbrevs (t : List Char) : List Char × List (Nat × List Char) :=
  protectAbbrevsGo 0 abbreviations t

/-- Restore pass: `sentence.replace(placeholder, abbrev)` over the
placeholder map in insertion order. -/
def restoreAbbrevs (ps : List (Nat × List Char)) (s : List Char) : List Char :=
  ps.foldl (fun acc p => replaceAll (placeholder p.1) p.2 acc) s

/-- Characters of the regex class `[.!?]`. -/
def isSentencePunct (c : Char) : Bool :=
  c = '.' ∨ c = '!' ∨ c = '?'

/-- The regex class `[A-Z]`. -/
def isAsciiUpper (c : Char) : Bool :=
  'A' ≤ c ∧ c ≤ 'Z'

/-- Fuel-bounded worker for `re.split(r"([.!?])\s+(?=[A-Z])", text)`.
At a sentence-punctuation character followed by a whitespace run whose end
is followed by `[A-Z]`, the match consumes the punctuation and the run
(the lookahead consumes nothing); the text before the match and the
captured punctuation become parts.  `acc` is the current part, reversed.
The fuel bounds the characters still to be scanned (each step consumes at
least one), so `fuel = remaining.length` suffices. -/
def splitSentencesGo : Nat → List Char → List Char → List (List Char)
  | _, acc, [] => [acc.reverse]
  | 0, acc, l => [acc.reverse ++ l]
  | fuel + 1, acc, c :: rest =>
    if isSentencePunct c then
      let ws := rest.takeWhile pyIsSpace
      let rest' := rest.drop ws.length
      if !ws.isEmpty && (match rest' with | d :: _ => isAsciiUpper d | [] => false) then
        acc.reverse :: [c] :: splitSentencesGo fuel [] rest'
      else
        splitSentencesGo fuel (c :: acc) rest
    else
      splitSentencesGo fuel (c :: acc) rest

/-- `re.split(r"([.!?])\s+(?=[A-Z])", text)`: parts between matches,
interleaved with the captured punctuation characters. -/
def splitSentences (t : List Char) : List (List Char) :=
  splitSentencesGo t.length [] t

/-- One sentence of the reconstruction loop: strip, drop if empty,
restore abbreviations. -/
def rebuildOne (ps : List (Nat × List Char)) (s : List Char) : List (List Char) :=
  let s' := stripChars s
  if s' = [] then [] else [restoreAbbrevs ps s']

/-- The reconstruction loop of `normalize`: pairs each part with the
following captured punctuation.  The Python guard is
`parts[i+1] in ".!?"`, which is a substring test on the string `".!?"`. -/
def rebuildParts (ps : List (Nat × List Char)) : List (List Char) → List (List Char)
  | [] => []
  | [p] => rebuildOne ps p
  | p :: q :: rest =>
    if containsSub q ".!?".data then
      rebuildOne ps (p ++ q) ++ rebuildParts ps rest
    else
      rebuildOne ps p ++ rebuildParts ps (q :: rest)

/-- Python `s.endswith((".", "!", "?"))`. -/
def endsWithPunct (l : List Char) : Bool :=
  match l.getLast? with
  | some c => isSentencePunct c
  | none => false

/-- `if result and not result[-1].endswith((".", "!", "?")): result[-1] += "."` -/
def fixTrailing (result : List (List Char)) : List (List Char) :=
  match result.getLast? with
  | none => result
  | some last =>
    if endsWithPunct last then result
    else result.dropLast ++ [last ++ ['.']]

/-- `textnorm.normalize` on `List Char`: strip, collapse whitespace,
protect abbreviations, split on sentence punctuation before a capital,
rebuild the sentences, restore abbreviations, and apply the two
trailing-period fallbacks. -/
def normalizeChars (t : List Char) : List (List Char) :=
  if stripChars t = [] then []
  else
    let t1 := collapseWs (stripChars t)
    let (tp, ps) := protectAbbrevs t1
    let parts := splitSentences tp
    let result := fixTrailing (rebuildParts ps parts)
    if result = [] ∧ tp ≠ [] then
      let t2 := restoreAbbrevs ps tp
      if endsWithPunct t2 then [t2] else [t2 ++ ['.']]
    else result

/-- `textnorm.normalize`. -/
def normalize (s : String) : List String :=
  (normalizeChars s.data).map String.mk

/-- Contraction table of `preprocess_for_tts`, in source (insertion) order. -/
def contractionPairs : List (String × String) :=
  [("can\x27t", "cannot"), ("won\x27t", "will not"), ("n\x27t", " not"),
   ("\x27re", " are"), ("\x27ve", " have"), ("\x27ll", " will"),
   ("\x27d", " would"), ("\x27m", " am")]

/-- Symbol table of `preprocess_for_tts`, in source order. -/
def symbolPairs : List (String × String) :=
  [("&", " and "), ("@", " at "), ("%", " percent"), ("$", " dollars ")]

/-- `textnorm.preprocess_for_tts`: expand contractions, spell out symbols,
collapse whitespace, strip. -/
def preprocess_for_tts (s : String) : String :=
  if s.data = [] then s
  else
    let t := (contractionPairs ++ symbolPairs).foldl
      (fun acc p => replaceAll p.1.data p.2.data acc) s.data
    String.mk (stripChars (collapseWs t))

/-! ## `acs_bridge.models.state` — `CallState`

`ws` is the WebSocket handle (an opaque identifier here), `seq` the
outbound sequence counter, `muted` the mute gate, `call_connection_id`
the call identity. -/

structure CallState where
  ws : Option Nat
  seq : Nat
  muted : Bool
  call_connection_id : Option String
  deriving Repr, DecidableEq

/-- `CallState.__init__`. -/
def CallState.init : CallState :=
  { ws := none, seq := 0, muted := false, call_connection_id := none }

/-- `CallState.has_active_call`. -/
def CallState.has_active_call (cs : CallState) : Bool :=
  cs.ws.isSome && cs.call_connection_id.isSome

/-- `CallState.start_call`. -/
def CallState.start_call (cs : CallState) (websocket : Nat)
    (callConnectionId : String) : CallState :=
  { cs with ws := some websocket, call_connection_id := some callConnectionId,
            seq := 0, muted := false }

/-- `CallState.end_call`. -/
def CallState.end_call (cs : CallState) : CallState :=
  { cs with ws := none, call_connection_id := none, seq := 0, muted := false }

/-- Dynamic dispatch of a zero-argument method on a `CallState` object.
The class body in `models/state.py` defines `__init__`, the property
`has_active_call`, and the methods `start_call` (two arguments) and
`end_call`; `end_call` is its only zero-argument method, so every other
name raises `AttributeError` — exactly what CPython does for
`call_state.<name>()` with an undefined name. -/
def CallState.invokeNoArg (cs : CallState) (name : String) :
    Except PyExn (CallState × Option Nat) :=
  if name = "end_call" then .ok (cs.end_call, none)
  else .error (.attributeError name)

/-! ## `acs_bridge.audio.utils.stream_wav_over_ws`

The pacer.  A WAV source is embedded as its header fields plus the raw
audio bytes (`List Nat`, one entry per byte).  `wave.readframes` returns
whole 2-byte samples, so on the well-formed sources the claims quantify
over (16-bit PCM, hence an even byte count) it is exactly `List.take`
of `bytes_per_frame` bytes.  The real-time sleep between frames has no
effect on the emitted frames or sequence numbers and is not modelled. -/

structure WavFile where
  nchannels : Nat
  framerate : Nat
  sampwidth : Nat
  data : List Nat
  deriving Repr, DecidableEq

/-- One emitted wire frame: the sequence number it carries and its
(zero-padded) PCM payload.  Base64 encoding is a bijection on payloads and
is left out of the model. -/
structure OutFrame where
  sequenceNumber : Nat
  payload : List Nat
  deriving Repr, DecidableEq

/-- The `while True` read-pad-send loop of `stream_wav_over_ws`.  `bpf` is
`bytes_per_frame`; the fuel bounds the remaining iterations (each
iteration consumes at least one byte since `bpf ≥ 1`), so
`fuel = data.length` suffices. -/
def streamLoop (bpf : Nat) : Nat → List Nat → Nat → List OutFrame × Nat
  | _, [], seq => ([], seq)
  | 0, _, seq => ([], seq)
  | fuel + 1, d :: rest, seq =>
    let chunk := (d :: rest).take bpf
    let frame := chunk ++ List.replicate (bpf - chunk.length) 0
    let (fs, fin) := streamLoop bpf fuel ((d :: rest).drop bpf) (seq + 1)
    (⟨seq, frame⟩ :: fs, fin)

/-- `SAMPLE_RATE` from `audio/constants.py`. -/
def SAMPLE_RATE : Nat := 16000

/-- `FRAME_MS` from `audio/constants.py`. -/
def FRAME_MS : Nat := 20

/-- `FRAME_SAMPLES = int(SAMPLE_RATE * FRAME_MS / 1000)`. -/
def FRAME_SAMPLES : Nat := SAMPLE_RATE * FRAME_MS / 1000

/-- `stream_wav_over_ws(ws, path, seq_start, frame_ms)`: asserts the WAV
is mono 16 kHz 16-bit, then emits zero-padded `bytes_per_frame`-sized
frames carrying consecutive sequence numbers and returns the next unused
sequence number. -/
def stream_wav_over_ws (w : WavFile) (seqStart : Nat) (frameMs : Nat) :
    Except PyExn (List OutFrame × Nat) :=
  let samplesPerFrame := SAMPLE_RATE * frameMs / 1000
  let bytesPerFrame := samplesPerFrame * 2
  if w.nchannels = 1 ∧ w.framerate = SAMPLE_RATE ∧ w.sampwidth = 2 then
    .ok (streamLoop bytesPerFrame w.data.length w.data seqStart)
  else
    .error (.assertionError "WAV must be mono, 16 kHz, 16-bit")

/-! ## `acs_bridge.services.media_streamer.MediaStreamer`

The sender task, the guarded playback paths, `stop_streaming`, and the
WebSocket cleanup from `routers/media_ws.py`. -/

/-- The `_tx_sender` loop body, applied to the microphone buffers the
bounded TX queue hands it.  Per buffer the source base64-encodes it and
calls `call_state.increment_seq()` for a fresh sequence number; the
surrounding `except Exception` catches anything that call raises, logs it
and ends the task.  The returned triple is (frames actually transmitted,
call state on exit, exception that ended the loop, if any). -/
def txSenderRun (cs : CallState) :
    List (List Nat) → List OutFrame × CallState × Option PyExn
  | [] => ([], cs, none)
  | buf :: rest =>
    match cs.invokeNoArg "increment_seq" with
    | .error e => ([], cs, some e)
    | .ok (cs', v) =>
      let (fs, fin, err) := txSenderRun cs' rest
      (⟨v.getD 0, buf⟩ :: fs, fin, err)

/-- `play_audio_file`: save the mute flag, force-mute, stream the file
(outcome supplied as an oracle `Except` since it depends on I/O), restore
the flag in `finally`, and propagate any streaming exception. -/
def play_audio_file (cs : CallState) (streamOutcome : Except PyExn Nat) :
    CallState × Except PyExn Unit :=
  let wasMuted := cs.muted
  let cs1 := { cs with muted := true }
  match streamOutcome with
  | .ok newSeq => ({ cs1 with seq := newSeq, muted := wasMuted }, .ok ())
  | .error e => ({ cs1 with muted := wasMuted }, .error e)

/-- One turn of `_tts_consumer` for a received transcript: save the mute
flag, force-mute, synthesize (oracle), stream the result (oracle), catch
any exception from either (logged, loop continues), restore the mute flag
in `finally`.  The turn itself never raises. -/
def ttsConsumerTurn (cs : CallState) (synthOutcome : Except PyExn String)
    (streamOutcome : String → Except PyExn Nat) : CallState :=
  let wasMuted := cs.muted
  let cs1 := { cs with muted := true }
  let cs2 :=
    match synthOutcome with
    | .ok wavPath =>
      match streamOutcome wavPath with
      | .ok newSeq => { cs1 with seq := newSeq }
      | .error _ => cs1
    | .error _ => cs1
  { cs2 with muted := wasMuted }

/-- The mutable fields of `MediaStreamer` that `stop_streaming` touches. -/
structure StreamerState where
  micStream : Bool
  txTask : Bool
  txQueueOpen : Bool
  ttsTask : Bool
  sttRunning : Bool
  wavWriterOpen : Bool
  transcriptQueueOpen : Bool
  deriving Repr, DecidableEq

/-- `MediaStreamer.stop_streaming`: cancel the TX task and the TTS task
(awaiting their cancellation, `CancelledError` suppressed), stop the
microphone (exceptions suppressed), stop STT (its `stop_processing` is a
no-op when not running), close the recording, clear the queues.  Every
step either suppresses or cannot raise here, so the embedding is total and
returns `.ok`. -/
def stop_streaming (_ms : StreamerState) : Except PyExn StreamerState :=
  .ok { micStream := false, txTask := false, txQueueOpen := false,
        ttsTask := false, sttRunning := false, wavWriterOpen := false,
        transcriptQueueOpen := false }

/-- `routers/media_ws._cleanup_websocket_connection`: stop streaming, then
`call_state.reset()`; the whole body is wrapped in `try/except Exception`
which only logs.  `reset` resolves through dynamic dispatch on
`CallState`. -/
def cleanupWebsocketConnection (cs : CallState) (ms : StreamerState) :
    CallState × StreamerState :=
  match stop_streaming ms with
  | .ok ms' =>
    match cs.invokeNoArg "reset" with
    | .ok (cs', _) => (cs', ms')
    | .error _ => (cs, ms')
  | .error _ => (cs, ms)

/-! ## `acs_bridge.services.stt_vosk.VoskSTTService` -/

/-- `STT_QUEUE_SIZE` from `audio/constants.py` (hard queue capacity). -/
def STT_QUEUE_SIZE : Nat := 400

/-- `STT_QUEUE_THRESHOLD` from `audio/constants.py` (high-water mark). -/
def STT_QUEUE_THRESHOLD : Nat := 350

/-- `TTS_QUEUE_SIZE` from `audio/constants.py` (transcript queue capacity). -/
def TTS_QUEUE_SIZE : Nat := 50

/-- The service state `process_audio_chunk` reads: the `_is_running` flag
and the internal work queue (`None` before `start_processing`).  Queue
entries are `Option` buffers because `stop_processing` enqueues `None` as
the poison value. -/
structure VoskSTTState where
  isRunning : Bool
  sttQueue : Option (List (Option (List Nat)))
  deriving Repr, DecidableEq

/-- `VoskSTTService.process_audio_chunk`: a no-op unless running with a
queue; enqueues only while `qsize() < STT_QUEUE_THRESHOLD` (the inner
`put_nowait` checks the hard capacity and its `queue.Full` is caught and
dropped); otherwise the chunk is silently dropped.  Every exception inside
is caught, so the embedding is a total state function. -/
def process_audio_chunk (s : VoskSTTState) (audioData : List Nat) : VoskSTTState :=
  if !s.isRunning then s
  else
    match s.sttQueue with
    | none => s
    | some q =>
      if q.length < STT_QUEUE_THRESHOLD then
        if q.length < STT_QUEUE_SIZE then { s with sttQueue := some (q ++ [some audioData]) }
        else s
      else s

/-- What the incremental recognizer reports for one `AcceptWaveform` call:
a finalized utterance (`Result`'s `text`) or only an interim hypothesis
(`PartialResult`'s text, observability only). -/
inductive RecEvent where
  | finalized (text : String)
  | interim (text : String)
  deriving Repr, DecidableEq

/-- `_emit_transcript`: `put_nowait` on the bounded transcript queue;
`asyncio.QueueFull` is caught and the transcript dropped. -/
def emitTranscript (cap : Nat) (q : List String) (text : String) : List String :=
  if q.length < cap then q ++ [text] else q

/-- The `_stt_worker` loop over the queued items, with the recognizer
modelled as an oracle `rec` giving the outcome of the `idx`-th
`AcceptWaveform` call.  A `none` item is the poison value (`break`); on a
finalized result the text is stripped and, if non-empty, emitted to the
transcript queue `q`; interim hypotheses are only logged.  Returns the
transcript queue when the loop ends. -/
def sttWorkerRun (rec : Nat → RecEvent) (cap : Nat) :
    Nat → List String → List (Option (List Nat)) → List String
  | _, q, [] => q
  | _, q, none :: _ => q
  | idx, q, some _ :: rest =>
    match rec idx with
    | .finalized raw =>
      let text := pyStrip raw
      if text ≠ "" then sttWorkerRun rec cap (idx + 1) (emitTranscript cap q text) rest
      else sttWorkerRun rec cap (idx + 1) q rest
    | .interim _ => sttWorkerRun rec cap (idx + 1) q rest

/-! ## `acs_bridge.services.tts_composite.CompositeTTSService` -/

/-- The two engines as the composite sees them: an availability flag and
the outcome of one `synthesize` call on a given text (oracle, since it
depends on binaries, voice assets and the filesystem). -/
structure TTSEnv where
  piperAvailable : Bool
  pyttsx3Available : Bool
  piperRun : String → Except PyExn String
  pyttsx3Run : String → Except PyExn String

/-- The `RuntimeError` the composite raises when no backend is configured
(the spec's `ServiceUnavailable` class). -/
def noTTSExn : PyExn :=
  .runtimeError "No TTS service available (neither Piper nor pyttsx3)"

/-- `CompositeTTSService.synthesize`: reject blank text, try Piper first
when available (any exception logged and falling through), then fall back
to pyttsx3 (whose exception is re-raised), else raise `RuntimeError`. -/
def compositeSynthesize (env : TTSEnv) (text : String) : Except PyExn String :=
  if pyStrip text = "" then .error (.valueError "Empty text")
  else
    let fallback : Except PyExn String :=
      if env.pyttsx3Available then env.pyttsx3Run text
      else .error noTTSExn
    if env.piperAvailable then
      match env.piperRun text with
      | .ok result => .ok result
      | .error _ => fallback
    else fallback

/-! ## `acs_bridge.services.tts_piper.PiperTTSService.synthesize`

The cache / path logic of Piper synthesis.  The filesystem is a set of
existing paths (`List String` with set semantics); `tempfile.mktemp` is a
fresh-name source driven by a counter; `ensure_16k_mono_wav` either
returns its argument (source already compliant, parameter `compliant`) or
converts to `<base>_16k_mono.wav`.  The SHA-1 digest truncated to 16 hex
characters is modelled by an injective stand-in (the key string itself):
the claims depend only on the key being a deterministic function of the
text and the synthesis parameters, never on hash collisions.
`_synthesize_sentence` is modelled as succeeding (creating its output
file); its failures would propagate out of `synthesize` and are outside
the cache claims.  The float parameters appear only inside the cache key
via `str()`, so they are embedded as their `str()` images. -/

structure PiperCfg where
  cacheDir : String
  voicePath : String
  lengthScaleStr : String
  noiseScaleStr : String
  noiseWStr : String
  sentenceSilenceStr : String
  deriving Repr, DecidableEq

/-- The string hashed for the cache key:
`f"{text}|{voice_path}|{length_scale}|{noise_scale}|{noise_w}|{sentence_silence}"`. -/
def cacheKeyRaw (cfg : PiperCfg) (text : String) : String :=
  text ++ "|" ++ cfg.voicePath ++ "|" ++ cfg.lengthScaleStr ++ "|" ++
  cfg.noiseScaleStr ++ "|" ++ cfg.noiseWStr ++ "|" ++ cfg.sentenceSilenceStr

/-- Stand-in for `hashlib.sha1(...).hexdigest()[:16]` (see section note). -/
def hashDigest (s : String) : String := s

/-- The cache file path `self.cache_dir / f"{cache_key}_piper.wav"`. -/
def cachedWavPath (cfg : PiperCfg) (text : String) : String :=
  cfg.cacheDir ++ "/" ++ hashDigest (cacheKeyRaw cfg text) ++ "_piper.wav"

/-- `tempfile.mktemp(suffix=f"_sentence_{i}.wav")` for the `i`-th sentence,
with the fresh random stem driven by a counter. -/
def tempWavPath (ctr i : Nat) : String :=
  "/tmp/piper" ++ Nat.repr ctr ++ "_sentence_" ++ Nat.repr i ++ ".wav"

/-- `os.path.splitext(path)[0] ++ "_16k_mono.wav"`, the conversion target
of `ensure_16k_mono_wav` (all paths involved end in `.wav`). -/
def monoConvertedPath (p : String) : String :=
  String.mk (p.data.take (p.data.length - 4)) ++ "_16k_mono.wav"

def fsAdd (fs : List String) (p : String) : List String :=
  if p ∈ fs then fs else fs ++ [p]

def fsAddAll (fs : List String) (l : List String) : List String :=
  l.foldl fsAdd fs

def fsRemoveAll (fs : List String) (l : List String) : List String :=
  fs.filter (fun p => decide (p ∉ l))

structure PiperSynthResult where
  path : String
  fs : List String
  tempCtr : Nat
  engineCalls : Nat
  deriving Repr, DecidableEq

/-- The `mktemp` names of one synthesis pass over `n` sentences. -/
def piperTempPaths (ctr n : Nat) : List String :=
  (List.range n).map (fun i => tempWavPath (ctr + i) i)

/-- The sentence files after `ensure_16k_mono_wav` for one pass. -/
def piperSentenceWavs (compliant : Bool) (ctr n : Nat) : List String :=
  (piperTempPaths ctr n).map (fun t => if compliant then t else monoConvertedPath t)

/-- The fresh-synthesis (cache-miss) branch of `synthesize`: one engine
invocation per sentence into `mktemp` files, 16 kHz-mono normalization of
each, then for a single sentence a `copy2` to the cache path returning the
*sentence file's* path, and for several sentences a crossfade written
directly to the cache path returning it; the `finally` block then deletes
the temporary engine outputs and every sentence file other than the
returned one. -/
def piperFreshResult (cfg : PiperCfg) (compliant : Bool)
    (fs : List String) (ctr : Nat) (text : String) : PiperSynthResult :=
  let cached := cachedWavPath cfg text
  let n := (normalize (preprocess_for_tts text)).length
  let temps := piperTempPaths ctr n
  let sentenceWavs := piperSentenceWavs compliant ctr n
  let fs1 := fsAddAll (fsAddAll fs temps) sentenceWavs
  let finalWav := if n = 1 then sentenceWavs.headD cached else cached
  let fs2 := fsAdd fs1 cached
  let fs3 := fsRemoveAll fs2 temps
  let fs4 := fsRemoveAll fs3 (sentenceWavs.filter (fun w => w ≠ finalWav))
  ⟨finalWav, fs4, ctr + n, n⟩

/-- `PiperTTSService.synthesize`: availability and blank-text checks, then
the cache probe (a hit returns the cached path without invoking the
engine), then sentence segmentation via `preprocess_for_tts` and
`normalize`, and on a miss the fresh-synthesis branch above. -/
def piperSynthesize (cfg : PiperCfg) (compliant available : Bool)
    (fs : List String) (ctr : Nat) (text : String) :
    Except PyExn PiperSynthResult :=
  if !available then
    .error (.runtimeError "Piper TTS not available")
  else if pyStrip text = "" then
    .error (.valueError "Empty text")
  else if cachedWavPath cfg text ∈ fs then
    .ok ⟨cachedWavPath cfg text, fs, ctr, 0⟩
  else if (normalize (preprocess_for_tts text)).isEmpty then
    .error (.valueError "No sentences found after text normalization")
  else
    .ok (piperFreshResult cfg compliant fs ctr text)

/-! ## Theorems -/

/-- C10: `CallState.start_call` always initializes the new call with
`seq = 0` and `muted = false` (and installs the channel and call
identity), and `CallState.end_call` also resets `muted` to `false` and
`seq` to `0`; hence a newly answered call never begins muted, whatever
state the previous call left behind. -/
theorem c10_call_lifecycle_resets (cs : CallState) (w : Nat) (cid : String) :
    (cs.start_call w cid).seq = 0 ∧ (cs.start_call w cid).muted = false ∧
    (cs.start_call w cid).ws = some w ∧
    (cs.start_call w cid).call_connection_id = some cid ∧
    cs.end_call.seq = 0 ∧ cs.end_call.muted = false ∧
    cs.end_call.ws = none ∧ cs.end_call.call_connection_id = none := by
  refine ⟨rfl, rfl, rfl, rfl, rfl, rfl, rfl, rfl⟩

/-- C3: whatever value `callState.muted` has before `play_audio_file` or
one TTS-consumer turn, it has the same value afterwards — whether the
guarded streaming/synthesis succeeds or raises — because both paths force
`muted = true` and restore the saved value in `finally`. -/
theorem c3_mute_restored (cs : CallState) (streamOutcome : Except PyExn Nat)
    (synthOutcome : Except PyExn String)
    (playOutcome : String → Except PyExn Nat) :
    (play_audio_file cs streamOutcome).1.muted = cs.muted ∧
    (ttsConsumerTurn cs synthOutcome playOutcome).muted = cs.muted := by
  constructor
  · cases streamOutcome <;> rfl
  · cases synthOutcome with
    | error e => rfl
    | ok p => cases playOutcome p <;> rfl

/-- C1 (code bug): the sender task is supposed to obtain a fresh, next
sequence number from the call state for every microphone frame, but
`_tx_sender` calls `call_state.increment_seq()` and `CallState` defines no
such method, so the very first dequeued frame raises `AttributeError`
(caught by the task's `except Exception`) and the sender transmits
nothing: given any non-empty run of queued microphone buffers, zero frames
are sent. -/
theorem c1_tx_sender_increment_seq_missing (cs : CallState)
    (buf : List Nat) (rest : List (List Nat)) :
    cs.invokeNoArg "increment_seq" = .error (.attributeError "increment_seq") ∧
    txSenderRun cs (buf :: rest) =
      ([], cs, some (.attributeError "increment_seq")) := by
  exact ⟨rfl, rfl⟩

/-- C4 (code bug): `stop_streaming` twice in a row indeed produces no
error, but the call state is never cleared: the cleanup path calls
`call_state.reset()`, a method `CallState` does not define (`end_call` is
the clearing method), so the resulting `AttributeError` is caught by the
cleanup's `except` and `CallState` keeps its channel, sequence number and
call identity. -/
theorem c4_cleanup_reset_missing (cs : CallState) (ms : StreamerState) :
    (∃ ms1, stop_streaming ms = .ok ms1 ∧ stop_streaming ms1 = .ok ms1) ∧
    cs.invokeNoArg "reset" = .error (.attributeError "reset") ∧
    (cleanupWebsocketConnection cs ms).1 = cs ∧
    (cleanupWebsocketConnection ⟨some 7, 42, true, some "call-1"⟩ ms).1 =
      ⟨some 7, 42, true, some "call-1"⟩ := by
  refine ⟨⟨_, rfl, rfl⟩, rfl, rfl, rfl⟩

/-- C6: submitting an audio chunk while the STT work queue is at or above
the high-water threshold (which sits below the hard capacity) leaves the
queue unchanged — the chunk is dropped, and since the embedding is a total
state function nothing is raised and nothing blocks; when the pipeline is
not running the call is likewise a non-raising no-op. -/
theorem c6_stt_backpressure (s : VoskSTTState) (q : List (Option (List Nat)))
    (chunk : List Nat) :
    (s.isRunning = true → s.sttQueue = some q →
      STT_QUEUE_THRESHOLD ≤ q.length → process_audio_chunk s chunk = s) ∧
    (s.isRunning = false → process_audio_chunk s chunk = s) ∧
    STT_QUEUE_THRESHOLD < STT_QUEUE_SIZE := by
  refine ⟨?_, ?_, by decide⟩
  · intro hrun hq hfull
    simp only [process_audio_chunk, hrun, hq]
    have : ¬ q.length < STT_QUEUE_THRESHOLD := by omega
    simp [this]
  · intro hrun
    simp [process_audio_chunk, hrun]

set_option maxRecDepth 4000 in
/-- Witness for C6 at a concrete full-to-threshold queue and a concrete
stopped service. -/
theorem c6_stt_backpressure_witness :
    process_audio_chunk ⟨true, some (List.replicate 350 none)⟩ [1, 2] =
      ⟨true, some (List.replicate 350 none)⟩ ∧
    process_audio_chunk ⟨false, none⟩ [1, 2] = ⟨false, none⟩ := by
  constructor
  · exact (c6_stt_backpressure ⟨true, some (List.replicate 350 none)⟩
      (List.replicate 350 none) [1, 2]).1 rfl rfl
      (by simp [List.length_replicate, STT_QUEUE_THRESHOLD])
  · exact (c6_stt_backpressure ⟨false, none⟩ [] [1, 2]).2.1 rfl

/-- Environment with neither TTS engine available (the engine oracles are
irrelevant on this path). -/
def envNoEngines : TTSEnv :=
  ⟨false, false, fun _ => .error (.runtimeError "unused"),
   fun _ => .error (.runtimeError "unused")⟩

/-- C7 counterexample: with neither engine available, blank input makes
`synthesize` fail with `ValueError("Empty text")` — the `InvalidInput`
class — not with the `ServiceUnavailable`-class `RuntimeError`, so "for
every input, if neither engine is available it fails with a
ServiceUnavailable-class error" is false at the input `" "`. -/
theorem c7_counterexample :
    compositeSynthesize envNoEngines " " = .error (.valueError "Empty text") ∧
    PyExn.valueError "Empty text" ≠ noTTSExn := by
  exact ⟨rfl, by decide⟩

/-- C7 (amended): for every input with non-blank text, the composite tries
the primary (Piper) engine first whenever it is available — a primary
success is returned as is; a primary failure falls back to the secondary
(pyttsx3) engine, whose outcome (success or re-raised exception) becomes
the result; and if neither engine is available it fails with the
`ServiceUnavailable`-class `RuntimeError`.  Blank input instead fails with
`ValueError` before availability is consulted. -/
theorem c7_composite_fallback (env : TTSEnv) (text : String)
    (hnb : pyStrip text ≠ "") :
    (∀ p, env.piperAvailable = true → env.piperRun text = .ok p →
      compositeSynthesize env text = .ok p) ∧
    (∀ e, env.piperAvailable = true → env.piperRun text = .error e →
      env.pyttsx3Available = true →
      compositeSynthesize env text = env.pyttsx3Run text) ∧
    (env.piperAvailable = false → env.pyttsx3Available = false →
      compositeSynthesize env text = .error noTTSExn) := by
  refine ⟨?_, ?_, ?_⟩
  · intro p hav hok
    simp [compositeSynthesize, hnb, hav, hok]
  · intro e hav herr hfb
    simp [compositeSynthesize, hnb, hav, herr, hfb]
  · intro hnav hnfb
    simp [compositeSynthesize, hnb, hnav, hnfb]

/-- Environment where Piper fails deterministically and pyttsx3 succeeds
(the spec's Scenario A shape). -/
def envPiperFails : TTSEnv :=
  ⟨true, true, fun _ => .error (.runtimeError "Piper process failed"),
   fun _ => .ok "tts_cache/fallback_raw_16k.wav"⟩

/-- Witness for C7: on `"Hello world."` with a deterministically failing
primary engine, the composite returns the secondary engine's asset. -/
theorem c7_composite_fallback_witness :
    compositeSynthesize envPiperFails "Hello world." =
      .ok "tts_cache/fallback_raw_16k.wav" := by
  exact (c7_composite_fallback envPiperFails "Hello world." (by decide)).2.1
    (.runtimeError "Piper process failed") rfl rfl rfl

/-- C9: every transcript the STT worker adds to the output queue comes
from a recognizer call that reported the utterance finalized, is the
trimmed text of that finalization, and is non-empty; if the recognizer
only ever produces interim (partial) hypotheses, the output queue is left
exactly as it was. -/
theorem c9_worker_only_finalized (rec : Nat → RecEvent) (cap idx : Nat)
    (q : List String) (items : List (Option (List Nat))) :
    (∀ t ∈ sttWorkerRun rec cap idx q items,
      t ∈ q ∨ ∃ i raw, rec i = .finalized raw ∧ t = pyStrip raw ∧ t ≠ "") ∧
    ((∀ i, ∃ s, rec i = .interim s) → sttWorkerRun rec cap idx q items = q) := by
  constructor
  · induction items generalizing idx q with
    | nil => intro t ht; exact Or.inl ht
    | cons item rest ih =>
      intro t ht
      match item with
      | none => exact Or.inl ht
      | some chunk =>
        simp only [sttWorkerRun] at ht
        cases hrec : rec idx with
        | finalized raw =>
          rw [hrec] at ht
          dsimp only at ht
          by_cases hne : pyStrip raw ≠ ""
          · rw [if_pos hne] at ht
            rcases ih (idx + 1) (emitTranscript cap q (pyStrip raw)) t ht with hq | hex
            · unfold emitTranscript at hq
              by_cases hcap : q.length < cap
              · simp only [hcap, if_pos] at hq
                rcases List.mem_append.mp hq with h | h
                · exact Or.inl h
                · refine Or.inr ⟨idx, raw, hrec, List.mem_singleton.mp h, ?_⟩
                  rw [List.mem_singleton.mp h]; exact hne
              · simp only [hcap, if_neg, not_false_iff] at hq
                exact Or.inl hq
            · exact Or.inr hex
          · rw [if_neg hne] at ht
            exact ih (idx + 1) q t ht
        | interim s =>
          rw [hrec] at ht
          dsimp only at ht
          exact ih (idx + 1) q t ht
  · intro hint
    induction items generalizing idx q with
    | nil => rfl
    | cons item rest ih =>
      match item with
      | none => rfl
      | some chunk =>
        obtain ⟨s, hs⟩ := hint idx
        simp only [sttWorkerRun, hs]
        exact ih (idx + 1) q

/-- Witness for C9: a recognizer that only reports interim hypotheses over
a three-chunk queue leaves the transcript queue empty. -/
theorem c9_worker_only_finalized_witness :
    sttWorkerRun (fun _ => .interim "hmm") 50 0 []
      [some [1], some [2], some [3]] = [] := by
  exact (c9_worker_only_finalized (fun _ => .interim "hmm") 50 0 []
    [some [1], some [2], some [3]]).2 (fun _ => ⟨"hmm", rfl⟩)

/-- `ceil(n / 640)` — the frame count the pacer emits for `n` audio bytes. -/
def ceilFrames (n : Nat) : Nat := (n + 639) / 640

lemma streamLoop_cons (bpf fuel d : Nat) (rest : List Nat) (seq : Nat) :
    streamLoop bpf (fuel + 1) (d :: rest) seq =
      (⟨seq, (d :: rest).take bpf ++
          List.replicate (bpf - ((d :: rest).take bpf).length) 0⟩ ::
        (streamLoop bpf fuel ((d :: rest).drop bpf) (seq + 1)).1,
       (streamLoop bpf fuel ((d :: rest).drop bpf) (seq + 1)).2) := by
  simp [streamLoop]

lemma ceilFrames_zero : ceilFrames 0 = 0 := by decide

lemma ceilFrames_step (n : Nat) (h : 0 < n) :
    ceilFrames n = ceilFrames (n - 640) + 1 := by
  unfold ceilFrames; omega

/-- Full characterization of the pacer loop when the fuel covers the
data: frame count, final sequence number, the emitted sequence-number
interval, and every payload as the zero-padded 640-byte chunk. -/
lemma streamLoop_spec : ∀ (fuel : Nat) (data : List Nat) (seq : Nat),
    data.length ≤ fuel →
    (streamLoop 640 fuel data seq).1.length = ceilFrames data.length ∧
    (streamLoop 640 fuel data seq).2 = seq + ceilFrames data.length ∧
    (streamLoop 640 fuel data seq).1.map OutFrame.sequenceNumber =
      List.range' seq (ceilFrames data.length) ∧
    (∀ i, ∀ h : i < (streamLoop 640 fuel data seq).1.length,
      ((streamLoop 640 fuel data seq).1.get ⟨i, h⟩).payload =
        (data.drop (640 * i)).take 640 ++
          List.replicate (640 - ((data.drop (640 * i)).take 640).length) 0) := by
  intro fuel
  induction fuel with
  | zero =>
    intro data seq hlen
    have hdata : data = [] := List.eq_nil_of_length_eq_zero (Nat.le_zero.mp hlen)
    subst hdata
    refine ⟨rfl, by simp [streamLoop, ceilFrames_zero], by simp [streamLoop, ceilFrames_zero], ?_⟩
    intro i h
    simp [streamLoop] at h
  | succ fuel ih =>
    intro data seq hlen
    match data with
    | [] =>
      refine ⟨rfl, by simp [streamLoop, ceilFrames_zero], by simp [streamLoop, ceilFrames_zero], ?_⟩
      intro i h
      simp [streamLoop] at h
    | d :: rest =>
      have hlen' : ((d :: rest).drop 640).length ≤ fuel := by
        simp only [List.length_drop, List.length_cons] at *
        omega
      obtain ⟨ihlen, ihsnd, ihmap, ihpay⟩ := ih ((d :: rest).drop 640) (seq + 1) hlen'
      have hdlen : ((d :: rest).drop 640).length = rest.length + 1 - 640 := by
        simp [List.length_drop]
      have hstep : ceilFrames (rest.length + 1) = ceilFrames (rest.length + 1 - 640) + 1 :=
        ceilFrames_step _ (by omega)
      rw [streamLoop_cons]
      refine ⟨?_, ?_, ?_, ?_⟩
      · simp only [List.length_cons, ihlen, hdlen]
        rw [hstep]
      · rw [ihsnd, hdlen]
        simp only [List.length_cons]
        rw [hstep]
        omega
      · simp only [List.map_cons, ihmap, hdlen, List.length_cons]
        rw [hstep, List.range'_succ]
      · intro i h
        match i with
        | 0 => simp [List.drop_zero]
        | Nat.succ j =>
          simp only [List.get_cons_succ]
          have hj : j < (streamLoop 640 fuel ((d :: rest).drop 640) (seq + 1)).1.length := by
            simp only [List.length_cons] at h
            omega
          rw [ihpay j hj]
          have hdd : ((d :: rest).drop 640).drop (640 * j) = (d :: rest).drop (640 * (j + 1)) := by
            rw [List.drop_drop]
            congr 1
            ring
          rw [hdd]

/-- C2: streaming a mono / 16 kHz / 16-bit WAV with `N` data bytes from
sequence number `start` emits exactly `ceil(N / 640)` frames, each exactly
640 bytes with the final chunk zero-padded, carrying exactly the
sequence-number interval `[start, start + ceil(N / 640))` in increasing
order, and returns `start + ceil(N / 640)` as the next unused sequence
number. -/
theorem c2_pacer_frames (w : WavFile) (start : Nat)
    (hch : w.nchannels = 1) (hfr : w.framerate = 16000) (hsw : w.sampwidth = 2)
    (heven : 2 ∣ w.data.length) :
    ∃ frames : List OutFrame,
      stream_wav_over_ws w start FRAME_MS = .ok (frames, start + ceilFrames w.data.length) ∧
      frames.length = ceilFrames w.data.length ∧
      frames.map OutFrame.sequenceNumber = List.range' start (ceilFrames w.data.length) ∧
      (∀ f ∈ frames, f.payload.length = 640) ∧
      (∀ i, ∀ h : i < frames.length, (frames.get ⟨i, h⟩).payload =
        (w.data.drop (640 * i)).take 640 ++
          List.replicate (640 - ((w.data.drop (640 * i)).take 640).length) 0) := by
  obtain ⟨hlen, hsnd, hmap, hpay⟩ := streamLoop_spec w.data.length w.data start le_rfl
  refine ⟨(streamLoop 640 w.data.length w.data start).1, ?_, hlen, hmap, ?_, hpay⟩
  · show (if w.nchannels = 1 ∧ w.framerate = SAMPLE_RATE ∧ w.sampwidth = 2 then _ else _) = _
    rw [if_pos ⟨hch, by rw [hfr]; rfl, hsw⟩]
    have hbpf : SAMPLE_RATE * FRAME_MS / 1000 * 2 = 640 := by decide
    rw [hbpf, ← hsnd]
  · intro f hf
    obtain ⟨n, hn⟩ := List.mem_iff_get.mp hf
    rw [← hn, hpay n.1 n.2]
    have : ((w.data.drop (640 * n.1)).take 640).length ≤ 640 :=
      List.length_take_le 640 (w.data.drop (640 * n.1))
    simp only [List.length_append, List.length_replicate]
    omega

/-- Witness for C2 at a six-byte mono 16 kHz 16-bit source: one padded
frame is emitted from sequence number 5. -/
theorem c2_pacer_frames_witness :
    ∃ frames : List OutFrame,
      stream_wav_over_ws ⟨1, 16000, 2, [9, 9, 9, 9, 9, 9]⟩ 5 FRAME_MS =
        .ok (frames, 5 + ceilFrames (6 : Nat)) ∧
      frames.length = ceilFrames (6 : Nat) ∧
      frames.map OutFrame.sequenceNumber = List.range' 5 (ceilFrames (6 : Nat)) ∧
      (∀ f ∈ frames, f.payload.length = 640) ∧
      (∀ i, ∀ h : i < frames.length, (frames.get ⟨i, h⟩).payload =
        (([9, 9, 9, 9, 9, 9] : List Nat).drop (640 * i)).take 640 ++
          List.replicate (640 - ((([9, 9, 9, 9, 9, 9] : List Nat).drop (640 * i)).take 640).length) 0) := by
  exact c2_pacer_frames ⟨1, 16000, 2, [9, 9, 9, 9, 9, 9]⟩ 5 rfl rfl rfl (by decide)

lemma mem_fsAdd_self (fs : List String) (p : String) : p ∈ fsAdd fs p := by
  unfold fsAdd
  by_cases h : p ∈ fs
  · rwa [if_pos h]
  · rw [if_neg h]
    exact List.mem_append_right fs (List.mem_singleton_self p)

lemma mem_fsAdd_of_mem (fs : List String) (p q : String) (h : p ∈ fs) :
    p ∈ fsAdd fs q := by
  unfold fsAdd
  by_cases hq : q ∈ fs
  · rwa [if_pos hq]
  · rw [if_neg hq]
    exact List.mem_append_left _ h

lemma mem_fsRemoveAll (fs l : List String) (p : String)
    (h : p ∈ fs) (hl : p ∉ l) : p ∈ fsRemoveAll fs l := by
  unfold fsRemoveAll
  exact List.mem_filter.mpr ⟨h, by simpa using hl⟩

lemma piperSynthesize_hit (cfg : PiperCfg) (compliant : Bool)
    (fs : List String) (ctr : Nat) (text : String)
    (hnb : pyStrip text ≠ "") (hmem : cachedWavPath cfg text ∈ fs) :
    piperSynthesize cfg compliant true fs ctr text =
      .ok ⟨cachedWavPath cfg text, fs, ctr, 0⟩ := by
  simp [piperSynthesize, hnb, hmem]

lemma piperSynthesize_miss (cfg : PiperCfg) (compliant : Bool)
    (fs : List String) (ctr : Nat) (text : String)
    (hnb : pyStrip text ≠ "") (hmiss : cachedWavPath cfg text ∉ fs)
    (hne : (normalize (preprocess_for_tts text)).isEmpty = false) :
    piperSynthesize cfg compliant true fs ctr text =
      .ok (piperFreshResult cfg compliant fs ctr text) := by
  simp [piperSynthesize, hnb, hmiss, hne]

/-- The concrete Piper configuration (defaults of `PiperTTSService` with
the float parameters rendered by `str()`). -/
def piperCfg0 : PiperCfg :=
  ⟨"tts_cache", "./voices/en-us-high.onnx", "1.08", "0.65", "0.8", "0.25"⟩

/-- Two consecutive `synthesize` calls on an initially empty cache, the
second continuing from the filesystem and name counter the first left. -/
def piperFirstCall : Except PyExn PiperSynthResult :=
  piperSynthesize piperCfg0 false true [] 0 "Hello world."

def piperSecondCall : Except PyExn PiperSynthResult :=
  piperFirstCall.bind
    (fun r => piperSynthesize piperCfg0 false true r.fs r.tempCtr "Hello world.")

/-- C8 counterexample: for the single-sentence text `"Hello world."`, the
first call returns the freshly converted sentence file's path while the
second call returns the cache path — the same asset content, but not the
same asset path, so "two consecutive calls ... return the same asset
path" is false; the second call does hit the cache (zero engine calls). -/
theorem c8_counterexample :
    piperFirstCall.map PiperSynthResult.path =
      .ok "/tmp/piper0_sentence_0_16k_mono.wav" ∧
    piperSecondCall.map PiperSynthResult.path =
      .ok (cachedWavPath piperCfg0 "Hello world.") ∧
    piperSecondCall.map PiperSynthResult.engineCalls = .ok 0 ∧
    "/tmp/piper0_sentence_0_16k_mono.wav" ≠ cachedWavPath piperCfg0 "Hello world." := by
  exact ⟨rfl, rfl, rfl, by decide⟩

/-- C8 (amended): the cache key is a deterministic function of the text
and the synthesis parameters, and a cache hit short-circuits synthesis:
whenever the cached asset exists, `synthesize` returns its path with zero
engine invocations and an unchanged filesystem.  Every successful fresh
call leaves the cached asset on disk (given that the `mktemp` names of the
pass are fresh, i.e. distinct from the cache path), so of two consecutive
calls with identical inputs the second always returns the cached asset
without invoking the engine.  The two calls return the *same* path
whenever the text segments into two or more sentences (the crossfade
writes directly to the cache path); for a single-sentence text the first
call instead returns the intermediate sentence file's path. -/
theorem c8_cache_behaviour (cfg : PiperCfg) (compliant : Bool)
    (fs : List String) (ctr : Nat) (text : String)
    (hnb : pyStrip text ≠ "")
    (hfresh1 : cachedWavPath cfg text ∉
      piperTempPaths ctr (normalize (preprocess_for_tts text)).length)
    (hfresh2 : cachedWavPath cfg text ∉
      piperSentenceWavs compliant ctr (normalize (preprocess_for_tts text)).length) :
    (cachedWavPath cfg text ∈ fs →
      piperSynthesize cfg compliant true fs ctr text =
        .ok ⟨cachedWavPath cfg text, fs, ctr, 0⟩) ∧
    (∀ r, cachedWavPath cfg text ∉ fs →
      piperSynthesize cfg compliant true fs ctr text = .ok r →
      cachedWavPath cfg text ∈ r.fs) ∧
    (∀ r, 2 ≤ (normalize (preprocess_for_tts text)).length →
      piperSynthesize cfg compliant true fs ctr text = .ok r →
      r.path = cachedWavPath cfg text) ∧
    (∀ r, cachedWavPath cfg text ∉ fs →
      piperSynthesize cfg compliant true fs ctr text = .ok r →
      2 ≤ (normalize (preprocess_for_tts text)).length →
      piperSynthesize cfg compliant true r.fs r.tempCtr text =
        .ok ⟨r.path, r.fs, r.tempCtr, 0⟩) := by
  have hmemfresh : cachedWavPath cfg text ∈
      (piperFreshResult cfg compliant fs ctr text).fs := by
    apply mem_fsRemoveAll
    · apply mem_fsRemoveAll
      · exact mem_fsAdd_self _ _
      · exact hfresh1
    · intro hmem
      exact hfresh2 (List.mem_of_mem_filter hmem)
  have hextract : ∀ r, cachedWavPath cfg text ∉ fs →
      piperSynthesize cfg compliant true fs ctr text = .ok r →
      r = piperFreshResult cfg compliant fs ctr text := by
    intro r hmiss hok
    by_cases hemp : (normalize (preprocess_for_tts text)).isEmpty = true
    · unfold piperSynthesize at hok
      rw [if_neg (by decide), if_neg hnb, if_neg hmiss, if_pos hemp] at hok
      exact absurd hok (by simp)
    · rw [piperSynthesize_miss cfg compliant fs ctr text hnb hmiss
        (Bool.eq_false_iff.mpr hemp)] at hok
      exact (Except.ok.inj hok).symm
  have hpathfresh : 2 ≤ (normalize (preprocess_for_tts text)).length →
      (piperFreshResult cfg compliant fs ctr text).path = cachedWavPath cfg text := by
    intro hmulti
    unfold piperFreshResult
    simp only
    rw [if_neg (by omega)]
  refine ⟨?_, ?_, ?_, ?_⟩
  · intro hmem
    exact piperSynthesize_hit cfg compliant fs ctr text hnb hmem
  · intro r hmiss hok
    rw [hextract r hmiss hok]
    exact hmemfresh
  · intro r hmulti hok
    by_cases hmiss : cachedWavPath cfg text ∈ fs
    · rw [piperSynthesize_hit cfg compliant fs ctr text hnb hmiss] at hok
      rw [← Except.ok.inj hok]
    · rw [hextract r hmiss hok]
      exact hpathfresh hmulti
  · intro r hmiss hok hmulti
    have hr := hextract r hmiss hok
    have hpath : r.path = cachedWavPath cfg text := by
      rw [hr]; exact hpathfresh hmulti
    have hmem : cachedWavPath cfg text ∈ r.fs := by
      rw [hr]; exact hmemfresh
    rw [piperSynthesize_hit cfg compliant r.fs r.tempCtr text hnb hmem, hpath]

/-- Witness for C8 on the two-sentence text `"Hello there. Goodbye now."`:
after the first (fresh) call wrote the crossfade to the cache path, the
second call returns the very same path with zero engine invocations on an
unchanged filesystem. -/
theorem c8_cache_behaviour_witness :
    piperSynthesize piperCfg0 false true
      ["tts_cache/Hello there. Goodbye now.|./voices/en-us-high.onnx|1.08|0.65|0.8|0.25_piper.wav"]
      2 "Hello there. Goodbye now." =
      .ok ⟨"tts_cache/Hello there. Goodbye now.|./voices/en-us-high.onnx|1.08|0.65|0.8|0.25_piper.wav",
           ["tts_cache/Hello there. Goodbye now.|./voices/en-us-high.onnx|1.08|0.65|0.8|0.25_piper.wav"],
           2, 0⟩ := by
  exact (c8_cache_behaviour piperCfg0 false [] 0 "Hello there. Goodbye now."
    (by decide) (by decide) (by decide)).2.2.2
    ⟨"tts_cache/Hello there. Goodbye now.|./voices/en-us-high.onnx|1.08|0.65|0.8|0.25_piper.wav",
     ["tts_cache/Hello there. Goodbye now.|./voices/en-us-high.onnx|1.08|0.65|0.8|0.25_piper.wav"],
     2, 2⟩
    (by decide) rfl (by decide)

/-! ### C5 infrastructure

Claim-side formalization of a sentence boundary, character-class facts,
and identity lemmas for each stage of `normalize` on inputs made of
letter words. -/

/-- ASCII letters. -/
def isAsciiLetter (c : Char) : Bool :=
  ('A' ≤ c ∧ c ≤ 'Z') ∨ ('a' ≤ c ∧ c ≤ 'z')

/-- The claim's sentence-boundary shape at character offset `i`: one of
`". "`, `"? "`, `"! "` followed by a capital letter. -/
def claimBoundaryAt (t : List Char) (i : Nat) : Bool :=
  match t.drop i with
  | c :: d :: e :: _ => isSentencePunct c && d = ' ' && isAsciiUpper e
  | _ => false

/-- Whether the abbreviation `pat` occurs in `t` at offset `j`. -/
def occursAt (pat t : List Char) (j : Nat) : Bool :=
  pat.isPrefixOf (t.drop j)

/-- Whether the character at offset `i` is the trailing period of an
occurrence of a configured abbreviation. -/
def abbrevTrailingPeriodAt (t : List Char) (i : Nat) : Bool :=
  abbreviations.any
    (fun a => decide (a.data.length ≤ i + 1) && occursAt a.data t (i + 1 - a.data.length))

lemma letter_not_space (c : Char) (h : isAsciiLetter c = true) :
    pyIsSpace c = false := by
  unfold isAsciiLetter at h
  unfold pyIsSpace
  apply decide_eq_false
  intro hsp
  rcases of_decide_eq_true h with ⟨h1, _⟩ | ⟨h1, _⟩ <;>
    rcases hsp with rfl | rfl | rfl | rfl | rfl | rfl <;>
      exact absurd h1 (by decide)

lemma letter_not_punct (c : Char) (h : isAsciiLetter c = true) :
    isSentencePunct c = false := by
  unfold isAsciiLetter at h
  unfold isSentencePunct
  apply decide_eq_false
  intro hsp
  rcases of_decide_eq_true h with ⟨h1, _⟩ | ⟨h1, _⟩ <;>
    rcases hsp with rfl | rfl | rfl <;>
      exact absurd h1 (by decide)

lemma upper_letter (c : Char) (h : isAsciiUpper c = true) :
    isAsciiLetter c = true := by
  unfold isAsciiUpper at h
  unfold isAsciiLetter
  exact decide_eq_true (Or.inl (of_decide_eq_true h))

lemma punct_not_space (c : Char) (h : isSentencePunct c = true) :
    pyIsSpace c = false := by
  unfold isSentencePunct at h
  unfold pyIsSpace
  apply decide_eq_false
  intro hsp
  rcases of_decide_eq_true h with rfl | rfl | rfl <;>
    rcases hsp with h1 | h1 | h1 | h1 | h1 | h1 <;>
      exact absurd h1 (by decide)

lemma punct_in_punctString (c : Char) (h : isSentencePunct c = true) :
    containsSub [c] ".!?".data = true := by
  rcases of_decide_eq_true h with rfl | rfl | rfl <;> decide

lemma dropWhile_cons_false (p : Char → Bool) (a : Char) (l : List Char)
    (h : p a = false) : (a :: l).dropWhile p = a :: l := by
  simp [List.dropWhile_cons, h]

/-- `str.strip` is the identity when neither end is whitespace. -/
lemma stripChars_eq_self (l : List Char)
    (hh : ∀ c, l.head? = some c → pyIsSpace c = false)
    (hl : ∀ c, l.getLast? = some c → pyIsSpace c = false) :
    stripChars l = l := by
  unfold stripChars
  have h1 : l.dropWhile pyIsSpace = l := by
    cases l with
    | nil => rfl
    | cons a t => exact dropWhile_cons_false _ a t (hh a rfl)
  rw [h1]
  have h2 : l.reverse.dropWhile pyIsSpace = l.reverse := by
    cases hr : l.reverse with
    | nil => rfl
    | cons a t =>
      apply dropWhile_cons_false
      apply hl
      rw [← List.head?_reverse, hr]
      rfl
  rw [h2, List.reverse_reverse]

lemma collapseWsGo_eq_self (l : List Char) (h : ∀ c ∈ l, pyIsSpace c = false) :
    ∀ b, collapseWsGo b l = l := by
  induction l with
  | nil => intro b; rfl
  | cons a t ih =>
    intro b
    have ha : pyIsSpace a = false := h a (List.mem_cons_self a t)
    simp [collapseWsGo, ha, ih (fun c hc => h c (List.mem_cons_of_mem a hc))]

lemma collapseWsGo_append_nospace (xs ys : List Char)
    (h : ∀ c ∈ xs, pyIsSpace c = false) :
    collapseWsGo false (xs ++ ys) = xs ++ collapseWsGo false ys := by
  induction xs with
  | nil => rfl
  | cons a t ih =>
    have ha : pyIsSpace a = false := h a (List.mem_cons_self a t)
    simp only [List.cons_append, collapseWsGo, ha, Bool.false_eq_true, if_false]
    rw [show t.append ys = t ++ ys from rfl,
      ih (fun c hc => h c (List.mem_cons_of_mem a hc))]

lemma protectAbbrevsGo_none (rest : List String) :
    ∀ (i : Nat) (t : List Char), (∀ a ∈ rest, containsSub a.data t = false) →
    protectAbbrevsGo i rest t = (t, []) := by
  induction rest with
  | nil => intro i t _; rfl
  | cons a as ih =>
    intro i t h
    have ha : containsSub a.data t = false := h a (List.mem_cons_self a as)
    simp only [protectAbbrevsGo, ha, Bool.false_eq_true, if_false]
    exact ih (i + 1) t (fun b hb => h b (List.mem_cons_of_mem a hb))

lemma splitGo_letters (xs : List Char) : ∀ (fuel : Nat) (acc ys : List Char),
    (∀ c ∈ xs, isSentencePunct c = false) →
    splitSentencesGo (xs.length + fuel) acc (xs ++ ys) =
      splitSentencesGo fuel (xs.reverse ++ acc) ys := by
  induction xs with
  | nil =>
    intro fuel acc ys _
    simp
  | cons x t ih =>
    intro fuel acc ys h
    have hx : isSentencePunct x = false := h x (List.mem_cons_self x t)
    have hstep : (x :: t).length + fuel = (t.length + fuel) + 1 := by
      simp [List.length_cons]; omega
    rw [hstep]
    show splitSentencesGo ((t.length + fuel) + 1) acc (x :: (t ++ ys)) = _
    simp only [splitSentencesGo, hx, Bool.false_eq_true, if_false]
    rw [ih fuel (x :: acc) ys (fun c hc => h c (List.mem_cons_of_mem x hc))]
    simp [List.reverse_cons, List.append_assoc]

lemma splitGo_boundary (p u : Char) (w acc : List Char) (fuel : Nat)
    (hp : isSentencePunct p = true) (hu : isAsciiUpper u = true)
    (husp : pyIsSpace u = false) :
    splitSentencesGo (fuel + 1) acc (p :: ' ' :: u :: w) =
      acc.reverse :: [p] :: splitSentencesGo fuel [] (u :: w) := by
  simp only [splitSentencesGo, hp, if_true, List.takeWhile_cons,
    show pyIsSpace ' ' = true from rfl, husp, Bool.false_eq_true, if_false,
    List.takeWhile_nil]
  simp [hu]

lemma splitSentences_family (w₁ : List Char) (p u : Char) (w₂ : List Char)
    (h1 : ∀ c ∈ w₁, isSentencePunct c = false)
    (h2 : ∀ c ∈ w₂, isSentencePunct c = false)
    (hp : isSentencePunct p = true) (hu : isAsciiUpper u = true)
    (husp : pyIsSpace u = false) (hupunct : isSentencePunct u = false) :
    splitSentences (w₁ ++ p :: ' ' :: u :: w₂) = [w₁, [p], u :: w₂] := by
  unfold splitSentences
  have hlen : (w₁ ++ p :: ' ' :: u :: w₂).length = w₁.length + (w₂.length + 3) := by
    simp [List.length_append]
  rw [hlen, splitGo_letters w₁ (w₂.length + 3) [] (p :: ' ' :: u :: w₂) h1,
    List.append_nil]
  rw [show w₂.length + 3 = (w₂.length + 2) + 1 from rfl,
    splitGo_boundary p u w₂ w₁.reverse (w₂.length + 2) hp hu husp,
    List.reverse_reverse]
  have hw2 : splitSentencesGo (w₂.length + 2) [] (u :: w₂) = [u :: w₂] := by
    have hall : ∀ c ∈ u :: w₂, isSentencePunct c = false := by
      intro c hc
      rcases List.mem_cons.mp hc with rfl | hc'
      · exact hupunct
      · exact h2 c hc'
    have hl : w₂.length + 2 = (u :: w₂).length + 1 := by simp
    have hsplit := splitGo_letters (u :: w₂) 1 [] [] hall
    rw [List.append_nil, List.append_nil] at hsplit
    rw [hl, hsplit]
    show [((u :: w₂).reverse).reverse] = _
    rw [List.reverse_reverse]
  rw [hw2]

lemma rebuildOne_id (s : List Char) (hne : s ≠ [])
    (hh : ∀ c, s.head? = some c → pyIsSpace c = false)
    (hl : ∀ c, s.getLast? = some c → pyIsSpace c = false) :
    rebuildOne [] s = [s] := by
  unfold rebuildOne
  rw [stripChars_eq_self s hh hl]
  simp only [hne, if_neg, not_false_iff]
  rfl

/-- On a two-letter-word text `w₁ ++ "<punct> " ++ (u :: w₂)` with `u`
capital and no configured abbreviation occurring anywhere, `normalize`
splits exactly at the punctuation boundary. -/
lemma normalizeChars_family (w₁ : List Char) (p u : Char) (w₂ : List Char)
    (hne : w₁ ≠ [])
    (hw₁ : ∀ c ∈ w₁, isAsciiLetter c = true)
    (hp : isSentencePunct p = true)
    (hu : isAsciiUpper u = true)
    (hw₂ : ∀ c ∈ w₂, isAsciiLetter c = true)
    (habb : ∀ a ∈ abbreviations,
      containsSub a.data (w₁ ++ p :: ' ' :: u :: w₂) = false) :
    normalizeChars (w₁ ++ p :: ' ' :: u :: w₂) =
      [w₁ ++ [p], (u :: w₂) ++ ['.']] := by
  have hul : isAsciiLetter u = true := upper_letter u hu
  have husp : pyIsSpace u = false := letter_not_space u hul
  have hupunct : isSentencePunct u = false := letter_not_punct u hul
  have hpsp : pyIsSpace p = false := punct_not_space p hp
  obtain ⟨c₀, w₁', rfl⟩ : ∃ c₀ w₁', w₁ = c₀ :: w₁' := by
    cases w₁ with
    | nil => exact absurd rfl hne
    | cons a t => exact ⟨a, t, rfl⟩
  set w₁ := c₀ :: w₁' with hw₁def
  have hc₀ : isAsciiLetter c₀ = true := hw₁ c₀ (List.mem_cons_self c₀ w₁')
  set t := w₁ ++ p :: ' ' :: u :: w₂ with htdef
  -- last character of the whole text and of (u :: w₂)
  have hlast : ∀ c, (u :: w₂).getLast? = some c → isAsciiLetter c = true := by
    intro c hc
    rcases List.mem_cons.mp (List.mem_of_getLast?_eq_some hc) with rfl | hc'
    · exact hul
    · exact hw₂ c hc'
  -- strip is the identity on the whole text
  have hstrip : stripChars t = t := by
    apply stripChars_eq_self
    · intro c hc
      rw [htdef, hw₁def] at hc
      simp only [List.cons_append, List.head?_cons, Option.some.injEq] at hc
      rw [← hc]
      exact letter_not_space c₀ hc₀
    · intro c hc
      rw [htdef, List.getLast?_append_of_ne_nil w₁ (by simp),
        List.getLast?_cons_cons, List.getLast?_cons_cons] at hc
      exact letter_not_space c (hlast c hc)
  -- whitespace collapapse is the identity on the whole text
  have hw₁nosp : ∀ c ∈ w₁, pyIsSpace c = false := by
    intro c hc
    exact letter_not_space c (hw₁ c hc)
  have hcoll : collapseWs t = t := by
    rw [htdef]
    unfold collapseWs
    rw [collapseWsGo_append_nospace w₁ (p :: ' ' :: u :: w₂) hw₁nosp]
    congr 1
    simp only [collapseWsGo, hpsp, Bool.false_eq_true, if_false,
      show pyIsSpace ' ' = true from rfl, if_true, husp]
    rw [collapseWsGo_eq_self w₂ (fun c hc => letter_not_space c (hw₂ c hc)) false]
  -- the protection pass does not touch the text
  have hprotect : protectAbbrevs t = (t, []) :=
    protectAbbrevsGo_none abbreviations 0 t habb
  -- the split
  have hsplit : splitSentences t = [w₁, [p], u :: w₂] :=
    splitSentences_family w₁ p u w₂
      (fun c hc => letter_not_punct c (hw₁ c hc))
      (fun c hc => letter_not_punct c (hw₂ c hc)) hp hu husp hupunct
  -- the rebuild
  have hreb1 : rebuildOne [] (w₁ ++ [p]) = [w₁ ++ [p]] := by
    apply rebuildOne_id
    · exact List.append_ne_nil_of_left_ne_nil hne [p]
    · intro c hc
      rw [hw₁def] at hc
      simp only [List.cons_append, List.head?_cons, Option.some.injEq] at hc
      rw [← hc]
      exact letter_not_space c₀ hc₀
    · intro c hc
      rw [List.getLast?_concat] at hc
      rw [← Option.some.inj hc]
      exact hpsp
  have hreb2 : rebuildOne [] (u :: w₂) = [u :: w₂] := by
    apply rebuildOne_id
    · simp
    · intro c hc
      simp only [List.head?_cons, Option.some.injEq] at hc
      rw [← hc]
      exact husp
    · intro c hc
      exact letter_not_space c (hlast c hc)
  have hrebuild : rebuildParts [] [w₁, [p], u :: w₂] =
      [w₁ ++ [p], u :: w₂] := by
    show rebuildParts [] (w₁ :: [p] :: [u :: w₂]) = _
    rw [rebuildParts, if_pos (punct_in_punctString p hp), hreb1]
    show _ ++ rebuildOne [] (u :: w₂) = _
    rw [hreb2]
    rfl
  -- the trailing-period fix appends a period to the second sentence
  have hfix : fixTrailing [w₁ ++ [p], u :: w₂] =
      [w₁ ++ [p], (u :: w₂) ++ ['.']] := by
    unfold fixTrailing
    have hglast : ([w₁ ++ [p], u :: w₂] : List (List Char)).getLast? =
        some (u :: w₂) := rfl
    rw [hglast]
    have hends : endsWithPunct (u :: w₂) = false := by
      unfold endsWithPunct
      cases hc : (u :: w₂).getLast? with
      | none => rfl
      | some c => exact letter_not_punct c (hlast c hc)
    dsimp only
    rw [hends]
    rfl
  -- assemble
  unfold normalizeChars
  rw [hstrip]
  rw [if_neg (by rw [htdef, hw₁def]; simp)]
  rw [hcoll]
  simp only []
  rw [hprotect]
  simp only []
  rw [hsplit, hrebuild, hfix]
  rw [if_neg (by simp)]

/-- C5 counterexample: in `"Hello. Mr. Smith is here."` the offset-5
period is a `". "`-plus-capital boundary and is not the trailing period of
any configured abbreviation, so the claim requires a split there; but the
protection pass has already replaced `"Mr."` with `"__ABBREV_1__"`, whose
leading underscore defeats the `[A-Z]` lookahead, and `normalize` returns
the whole text as a single chunk — no split happens anywhere. -/
theorem c5_counterexample :
    claimBoundaryAt "Hello. Mr. Smith is here.".data 5 = true ∧
    abbrevTrailingPeriodAt "Hello. Mr. Smith is here.".data 5 = false ∧
    normalize "Hello. Mr. Smith is here." = ["Hello. Mr. Smith is here."] := by
  refine ⟨by decide, by decide, by decide⟩

/-- C5 (amended): segmentation never splits at a configured abbreviation's
trailing period, and it splits at every other `". "`/`"? "`/`"! "`-plus-
capital boundary **unless the following capitalized word itself begins a
configured abbreviation occurrence** (the protection placeholder starts
with an underscore, hiding the capital letter from the boundary pattern).
Conjunct 1 proves the split for every two-word text `w₁ ++ "<p> " ++ u::w₂`
(letter words, `u` capital, no abbreviation occurring); conjunct 2 proves
no-split at each configured abbreviation followed by a capitalized word;
conjunct 3 proves the exception: a sentence boundary immediately before
each configured abbreviation is not split; conjunct 4 is a control showing
the same boundary does split when no abbreviation follows. -/
theorem c5_segmentation_amended :
    (∀ (w₁ : List Char) (p u : Char) (w₂ : List Char),
      w₁ ≠ [] →
      (∀ c ∈ w₁, isAsciiLetter c = true) →
      isSentencePunct p = true →
      isAsciiUpper u = true →
      (∀ c ∈ w₂, isAsciiLetter c = true) →
      (∀ a ∈ abbreviations,
        containsSub a.data (w₁ ++ p :: ' ' :: u :: w₂) = false) →
      normalizeChars (w₁ ++ p :: ' ' :: u :: w₂) =
        [w₁ ++ [p], (u :: w₂) ++ ['.']]) ∧
    (∀ a ∈ abbreviations,
      normalize ("We met " ++ a ++ " Smith today.") =
        ["We met " ++ a ++ " Smith today."]) ∧
    (∀ a ∈ abbreviations,
      normalize ("He left. " ++ a ++ " Smith stayed.") =
        ["He left. " ++ a ++ " Smith stayed."]) ∧
    normalize "He left. Toronto Smith stayed." =
      ["He left.", "Toronto Smith stayed."] := by
  refine ⟨?_, by decide, by decide, by decide⟩
  intro w₁ p u w₂ hne hw₁ hp hu hw₂ habb
  exact normalizeChars_family w₁ p u w₂ hne hw₁ hp hu hw₂ habb

/-- Witness for C5 at the concrete text `"Hi! Yes"`: the amended claim's
universal conjunct instantiated at `w₁ = "Hi"`, `p = '!'`, `u = 'Y'`,
`w₂ = "es"`. -/
theorem c5_segmentation_amended_witness :
    normalizeChars ("Hi".data ++ '!' :: ' ' :: 'Y' :: "es".data) =
      ["Hi".data ++ ['!'], ('Y' :: "es".data) ++ ['.']] := by
  exact c5_segmentation_amended.1 "Hi".data '!' 'Y' "es".data
    (by decide) (by decide) (by decide) (by decide) (by decide) (by decide)

end AcsBridge
